import Mathlib

/-!
Verification development for the mmwaveconsole radar firmware.

The repository source consists of the configuration header
`src/mmwaveconsole/user_config.h`; the frame-ingestion and target-tracking
pipeline it parameterizes (FrameReader, FrameDecoder, TargetTracker,
OutputDispatcher) is specified in the design document but its implementation
is not part of the provided sources.  The pipeline components below are
therefore modelled from the specification text, faithful to its words, while
the configuration constants are transcribed directly from `user_config.h`.
-/

namespace MMWave

/-! ## Configuration constants, transcribed from `src/mmwaveconsole/user_config.h`.
Unsigned C++ types are embedded as `Nat`; `int` as `Int`; `bool` as `Bool`.
The declared bit width of each constant is recorded separately so that the
absence of overflow or truncation in the initializers can be stated. -/

def CONFIG_BAUD_RATE : Nat := 256000

def CONFIG_RADAR_RX_PIN : Nat := 18

def CONFIG_RADAR_TX_PIN : Nat := 17

def CONFIG_MULTI_TARGET : Bool := false

def CONFIG_MAX_TARGETS : Nat := 3

def CONFIG_ENABLE_FILTERING : Bool := false

def CONFIG_OUTPUT_INTERVAL_MS : Nat := 100

def CONFIG_MAX_FRAMES_PER_CYCLE : Nat := 5

def CONFIG_ENABLE_WEB_SERVER : Bool := true

def CONFIG_WEB_SERVER_PORT : Nat := 80

def CONFIG_WIFI_CONNECTION_TIMEOUT : Int := 15000

def CONFIG_ENABLE_WIFI_RECONNECT : Bool := true

def CONFIG_ENABLE_LOGGING : Bool := false

def CONFIG_LOG_INTERVAL_MS : Nat := 5000

def CONFIG_MAX_LOG_FILE_SIZE : Nat := 1024 * 100

/-! ## FrameReader

Modelled from the spec: §2/§4.1.  A `RawFrame` is a byte sequence bounded by a
start/end marker pair.  The concrete framed-binary layout (the spec leaves it
as a generic design choice) is
`FRAME_START, length, payload bytes, checksum, FRAME_END` with the checksum
the payload sum modulo 256.  The reader keeps a byte accumulator; on a
malformed frame (checksum or end-marker mismatch) it discards bytes up to the
next plausible start marker and counts a corrupt frame; incomplete trailing
bytes are retained across calls; at most `CONFIG_MAX_FRAMES_PER_CYCLE` frames
are consumed per `pollBytes` invocation.  Bytes are embedded as `Nat`. -/

def FRAME_START : Nat := 170

def FRAME_END : Nat := 85

def checksum (payload : List Nat) : Nat := payload.sum % 256

def encodeFrame (payload : List Nat) : List Nat :=
  FRAME_START :: payload.length :: (payload ++ [checksum payload, FRAME_END])

/-- Outcome of one parsing attempt on the front of the accumulator. -/
inductive StepResult where
  | frame (payload : List Nat) (rest : List Nat)
  | skip (rest : List Nat) (corrupt : Bool)
  | wait
deriving Repr, DecidableEq

/-- Modelled from the spec: one attempt to extract a frame from the front of
the accumulator.  A non-start byte is garbage and is dropped; a start byte
with too few following bytes is an incomplete frame (retained); a complete
candidate with a bad checksum or end marker is corrupt, and resynchronization
drops the start byte and continues at the next byte. -/
def tryParse (acc : List Nat) : StepResult :=
  if acc.length < 1 then .wait
  else if acc.headD 0 ≠ FRAME_START then .skip acc.tail false
  else if acc.length < 2 then .wait
  else if acc.tail.tail.length < acc.tail.headD 0 + 2 then .wait
  else if (acc.tail.tail.drop (acc.tail.headD 0)).take 2
      = [checksum (acc.tail.tail.take (acc.tail.headD 0)), FRAME_END] then
    .frame (acc.tail.tail.take (acc.tail.headD 0))
      (acc.tail.tail.drop (acc.tail.headD 0 + 2))
  else .skip acc.tail true

/-- Result of draining the accumulator: extracted frame payloads, the retained
rest of the accumulator, and the number of corrupt frames encountered. -/
structure DrainResult where
  frames : List (List Nat)
  rest : List Nat
  corrupt : Nat
deriving Repr, DecidableEq

def addCorrupt (c : Bool) (d : DrainResult) : DrainResult :=
  ⟨d.frames, d.rest, d.corrupt + (if c then 1 else 0)⟩

def consFrame (p : List Nat) (d : DrainResult) : DrainResult :=
  ⟨p :: d.frames, d.rest, d.corrupt⟩

/-- Fuel-indexed accumulator drain without a frame budget.  Each parsing step
consumes at least one byte, so fuel `acc.length` always suffices. -/
def drainFuel : Nat → List Nat → DrainResult
  | 0, acc => ⟨[], acc, 0⟩
  | fuel + 1, acc =>
    match tryParse acc with
    | .wait => ⟨[], acc, 0⟩
    | .skip r c => addCorrupt c (drainFuel fuel r)
    | .frame p r => consFrame p (drainFuel fuel r)

/-- Modelled from the spec: reading the accumulator to quiescence — the frames
the reader eventually yields from the bytes it holds. -/
def drain (acc : List Nat) : DrainResult := drainFuel acc.length acc

/-- Fuel-indexed drain with a frame budget; garbage skipping does not consume
budget, extracted frames do. -/
def drainBoundedFuel : Nat → Nat → List Nat → DrainResult
  | 0, _, acc => ⟨[], acc, 0⟩
  | _ + 1, 0, acc => ⟨[], acc, 0⟩
  | fuel + 1, budget + 1, acc =>
    match tryParse acc with
    | .wait => ⟨[], acc, 0⟩
    | .skip r c => addCorrupt c (drainBoundedFuel fuel (budget + 1) r)
    | .frame p r => consFrame p (drainBoundedFuel fuel budget r)

def drainBounded (budget : Nat) (acc : List Nat) : DrainResult :=
  drainBoundedFuel acc.length budget acc

/-- FrameReader state: the retained byte accumulator and the corrupt-frame
side-channel counter. -/
structure FrameReader where
  acc : List Nat
  corruptCount : Nat
deriving Repr, DecidableEq

/-- Modelled from the spec: `pollBytes` appends the newly available bytes to
the accumulator, extracts at most `CONFIG_MAX_FRAMES_PER_CYCLE` frames,
retains the unconsumed tail and counts corrupt frames. -/
def pollBytes (r : FrameReader) (bytes : List Nat) : FrameReader × List (List Nat) :=
  let d := drainBounded CONFIG_MAX_FRAMES_PER_CYCLE (r.acc ++ bytes)
  (⟨d.rest, r.corruptCount + d.corrupt⟩, d.frames)

/-- Repeated `pollBytes` invocations with no further input bytes, collecting
all yielded frames — the loop-level view of "eventually yields". -/
def pollMany : Nat → FrameReader → FrameReader × List (List Nat)
  | 0, r => (r, [])
  | n + 1, r =>
    let s1 := pollBytes r []
    let s2 := pollMany n s1.1
    (s2.1, s1.2 ++ s2.2)

/-- A byte stream made of `N` well-formed frames interleaved with garbage
segments: garbage, then a frame, …, then trailing garbage. -/
def assemble : List (List Nat × List Nat) → List Nat → List Nat
  | [], gEnd => gEnd
  | (g, p) :: rest, gEnd => g ++ (encodeFrame p ++ assemble rest gEnd)

/-! ## FrameDecoder

Modelled from the spec: §4.2.  `decode` branches on the multi-target mode:
single-target mode expects exactly one record, multi-target mode up to
`CONFIG_MAX_TARGETS` records, each with a per-record presence indicator.
It fails with `BadLength` or `BadFieldRange` (defensive bounds check) and is
pure and side-effect-free.  The concrete record layout (a design choice the
spec leaves open) is five bytes: presence, x, y, velocity, signal. -/

inductive DecodeError where
  | BadLength
  | BadFieldRange
deriving Repr, DecidableEq

structure TargetRecord where
  slot : Nat
  x : Int
  y : Int
  velocity : Int
  signal : Nat
  valid : Bool
deriving Repr, DecidableEq

def RECORD_SIZE : Nat := 5

/-- Sensor-plausible coordinate bound used by the defensive range check. -/
def MAX_COORD : Nat := 10000

def decodeRecord (i : Nat) (bytes : List Nat) : Except DecodeError TargetRecord :=
  match bytes with
  | [present, x, y, v, sig] =>
    if x ≤ MAX_COORD ∧ y ≤ MAX_COORD then
      .ok ⟨i, (x : Int), (y : Int), (v : Int), sig, present ≠ 0⟩
    else .error .BadFieldRange
  | _ => .error .BadLength

/-- Decode consecutive `RECORD_SIZE`-byte records starting at slot `i`. -/
def decodeRecords (i : Nat) : List Nat → Except DecodeError (List TargetRecord)
  | [] => .ok []
  | present :: x :: y :: v :: sig :: rest =>
    match decodeRecord i [present, x, y, v, sig] with
    | .error e => .error e
    | .ok r =>
      match decodeRecords (i + 1) rest with
      | .error e => .error e
      | .ok rs => .ok (r :: rs)
  | _ => .error .BadLength

/-- Modelled from the spec: `decode(RawFrame) -> Result<TargetRecords, DecodeError>`,
branching on the multi-target mode. -/
def decode (multi : Bool) (maxTargets : Nat) (payload : List Nat) :
    Except DecodeError (List TargetRecord) :=
  if multi then
    if payload.length % RECORD_SIZE = 0 ∧ payload.length / RECORD_SIZE ≤ maxTargets then
      decodeRecords 0 payload
    else .error .BadLength
  else
    match decodeRecord 0 payload with
    | .error e => .error e
    | .ok r => .ok [r]

/-! ## TargetTracker

Modelled from the spec: §4.4.  Single-target mode: slot 0 always reflects the
latest valid record, or is invalid if absent.  Multi-target mode: new records
are matched to existing occupied slots nearest in position before a free slot
is allocated to unmatched detections; a previously-occupied slot that receives
no matching record is marked invalid only after `DEBOUNCE_MISS_THRESHOLD`
consecutive missed frames.  The snapshot length is constant:
`CONFIG_MAX_TARGETS` slots in multi-target mode, 1 otherwise. -/

/-- Modelled from the spec: the debounce threshold is a design parameter the
implementer chooses explicitly; the spec's worked example uses 3 missed
frames. -/
def DEBOUNCE_MISS_THRESHOLD : Nat := 3

structure SlotState where
  occupied : Bool
  x : Int
  y : Int
  velocity : Int
  signal : Nat
  missCount : Nat
deriving Repr, DecidableEq

structure TargetTracker where
  slots : List SlotState
deriving Repr, DecidableEq

def emptySlot : SlotState := ⟨false, 0, 0, 0, 0, 0⟩

def recordToSlot (r : TargetRecord) : SlotState := ⟨true, r.x, r.y, r.velocity, r.signal, 0⟩

def snapshotLen (multi : Bool) (maxTargets : Nat) : Nat :=
  if multi then maxTargets else 1

def initTracker (multi : Bool) (maxTargets : Nat) : TargetTracker :=
  ⟨List.replicate (snapshotLen multi maxTargets) emptySlot⟩

/-- Squared Euclidean distance between a slot and a record, for
nearest-neighbor assignment. -/
def slotDist (s : SlotState) (r : TargetRecord) : Int :=
  (s.x - r.x) * (s.x - r.x) + (s.y - r.y) * (s.y - r.y)

/-- Index and distance of the nearest candidate slot. -/
def bestMatch (r : TargetRecord) : List (Nat × SlotState) → Option (Nat × Int)
  | [] => none
  | (i, s) :: rest =>
    let d := slotDist s r
    match bestMatch r rest with
    | none => some (i, d)
    | some (j, e) => if d ≤ e then some (i, d) else some (j, e)

/-- Indexed list of occupied, not-yet-matched slots. -/
def candidates (i : Nat) : List (SlotState × Bool) → List (Nat × SlotState)
  | [] => []
  | (s, m) :: rest =>
    if s.occupied && !m then (i, s) :: candidates (i + 1) rest
    else candidates (i + 1) rest

/-- Index of the first free, not-yet-matched slot. -/
def firstFree (i : Nat) : List (SlotState × Bool) → Option Nat
  | [] => none
  | (s, m) :: rest =>
    if !s.occupied && !m then some i else firstFree (i + 1) rest

/-- Assign one decoded record: nearest occupied slot first, otherwise the
first free slot; with no capacity left the detection is dropped.  The `Bool`
component marks slots already matched in this frame. -/
def assignRecord (ws : List (SlotState × Bool)) (r : TargetRecord) :
    List (SlotState × Bool) :=
  if !r.valid then ws
  else
    match bestMatch r (candidates 0 ws) with
    | some (i, _) => ws.set i (recordToSlot r, true)
    | none =>
      match firstFree 0 ws with
      | some i => ws.set i (recordToSlot r, true)
      | none => ws

/-- Debounce step for one slot after assignment: an occupied slot that
received no match this frame accrues a miss and is invalidated once the
threshold of consecutive misses is reached. -/
def missStep (sm : SlotState × Bool) : SlotState :=
  if sm.2 then sm.1
  else if sm.1.occupied then
    if DEBOUNCE_MISS_THRESHOLD ≤ sm.1.missCount + 1 then
      ⟨false, sm.1.x, sm.1.y, sm.1.velocity, sm.1.signal, 0⟩
    else
      ⟨true, sm.1.x, sm.1.y, sm.1.velocity, sm.1.signal, sm.1.missCount + 1⟩
  else sm.1

def updateMulti (t : TargetTracker) (records : List TargetRecord) : TargetTracker :=
  let ws := records.foldl assignRecord (t.slots.map (fun s => (s, false)))
  ⟨ws.map missStep⟩

def updateSingle (records : List TargetRecord) : TargetTracker :=
  match records.find? (fun r => r.valid) with
  | some r => ⟨[recordToSlot r]⟩
  | none => ⟨[emptySlot]⟩

def snapshotAux (i : Nat) : List SlotState → List TargetRecord
  | [] => []
  | s :: rest => ⟨i, s.x, s.y, s.velocity, s.signal, s.occupied⟩ :: snapshotAux (i + 1) rest

/-- The published `TargetSnapshot`: one `TargetRecord` per slot, slot ids in
order, `valid` reflecting occupancy. -/
def snapshot (t : TargetTracker) : List TargetRecord := snapshotAux 0 t.slots

/-- Modelled from the spec: `update(TargetRecords) -> TargetSnapshot`,
branching on the multi-target mode; returns the new tracker state and the
snapshot produced by this call. -/
def update (multi : Bool) (t : TargetTracker) (records : List TargetRecord) :
    TargetTracker × List TargetRecord :=
  let t2 := if multi then updateMulti t records else updateSingle records
  (t2, snapshot t2)

/-! ## OutputDispatcher

Modelled from the spec: §4.5.  `maybeEmit` tracks the last-emit timestamp and
suppresses emission — returning `false` with no side effect — when
`CONFIG_OUTPUT_INTERVAL_MS` has not elapsed.  When emitting, it pushes the
snapshot to every registered sink independently; the returned list holds each
sink's own delivery outcome, so one sink's failure cannot block the others. -/

structure Sink where
  accept : List TargetRecord → Bool

structure OutputDispatcher where
  lastEmitMs : Option Nat
deriving Repr, DecidableEq

def maybeEmit (sinks : List Sink) (d : OutputDispatcher) (snap : List TargetRecord)
    (now : Nat) : OutputDispatcher × Bool × List Bool :=
  match d.lastEmitMs with
  | none => (⟨some now⟩, true, sinks.map (fun k => k.accept snap))
  | some t =>
    if CONFIG_OUTPUT_INTERVAL_MS ≤ now - t then
      (⟨some now⟩, true, sinks.map (fun k => k.accept snap))
    else (d, false, [])

/-- Dispatcher state after a sequence of further `maybeEmit` calls, each given
as a snapshot/timestamp pair. -/
def dispatchAfter (sinks : List Sink) (d : OutputDispatcher)
    (calls : List (List TargetRecord × Nat)) : OutputDispatcher :=
  calls.foldl (fun d c => (maybeEmit sinks d c.1 c.2).1) d

/-! ## Control loop

Modelled from the spec: §5/§7.  One loop iteration polls bytes, decodes each
extracted frame (counting and discarding frames that fail to decode), updates
the tracker per decoded frame, and dispatches the current snapshot.  The
`Except` result records whether any error escapes the iteration; every frame,
decode or sink error is handled locally. -/

structure SysState where
  reader : FrameReader
  tracker : TargetTracker
  dispatcher : OutputDispatcher
  decodeErrorCount : Nat
  sinkFailCount : Nat

def decodeStep (multi : Bool) (maxTargets : Nat) (s : SysState) (frame : List Nat) :
    SysState × Except DecodeError (List TargetRecord) :=
  (s, decode multi maxTargets frame)

def trackFrame (multi : Bool) (maxTargets : Nat) (acc : TargetTracker × Nat)
    (f : List Nat) : TargetTracker × Nat :=
  match decode multi maxTargets f with
  | .ok rs => ((update multi acc.1 rs).1, acc.2)
  | .error _ => (acc.1, acc.2 + 1)

def loopStep (multi : Bool) (maxTargets : Nat) (sinks : List Sink) (s : SysState)
    (bytes : List Nat) (now : Nat) : Except DecodeError SysState :=
  let polled := pollBytes s.reader bytes
  let tracked := polled.2.foldl (trackFrame multi maxTargets) (s.tracker, 0)
  let emitted := maybeEmit sinks s.dispatcher (snapshot tracked.1) now
  .ok ⟨polled.1, tracked.1, emitted.1,
       s.decodeErrorCount + tracked.2,
       s.sinkFailCount + (emitted.2.2.filter (fun b => b = false)).length⟩

/-! ## Basic facts about `tryParse` -/

theorem tryParse_nil : tryParse [] = .wait := rfl

theorem tryParse_garbage {x : Nat} (l : List Nat) (hx : x ≠ FRAME_START) :
    tryParse (x :: l) = .skip l false := by
  unfold tryParse
  simp [hx]

theorem tryParse_skip_length {acc r : List Nat} {c : Bool}
    (h : tryParse acc = .skip r c) : r.length < acc.length := by
  unfold tryParse at h
  split_ifs at h with h1 h2 h3 h4 h5 <;> cases h <;>
    (have ht := List.length_tail acc
     omega)

theorem tryParse_frame_length {acc r p : List Nat}
    (h : tryParse acc = .frame p r) : r.length < acc.length := by
  unfold tryParse at h
  split_ifs at h with h1 h2 h3 h4 h5 <;> cases h <;>
    (have ht := List.length_tail acc
     have htt := List.length_tail acc.tail
     have hd := List.length_drop (acc.tail.headD 0 + 2) acc.tail.tail
     omega)

theorem tryParse_encode (p rest : List Nat) :
    tryParse (encodeFrame p ++ rest) = .frame p rest := by
  have hre : encodeFrame p ++ rest
      = FRAME_START :: p.length :: (p ++ (checksum p :: FRAME_END :: rest)) := by
    simp [encodeFrame]
  rw [hre]
  unfold tryParse
  simp only [List.headD_cons, List.tail_cons, List.length_cons, List.length_append]
  rw [if_neg (by omega), if_neg (by simp), if_neg (by omega),
      if_neg (by simp)]
  rw [List.take_left, ← List.drop_drop, List.drop_left]
  simp

theorem tryParse_prefix_wait {p part1 part2 : List Nat}
    (hsplit : encodeFrame p = part1 ++ part2) (hne : part2 ≠ []) :
    tryParse part1 = .wait := by
  match part1 with
  | [] => rfl
  | [a] =>
    have ha : a = FRAME_START := by
      have := congrArg (fun l => l.headD 0) hsplit
      simpa [encodeFrame] using this.symm
    unfold tryParse
    simp [ha]
  | a :: b :: t =>
    have h : FRAME_START = a ∧ p.length = b ∧ p ++ [checksum p, FRAME_END] = t ++ part2 := by
      simpa [encodeFrame, List.cons_append] using hsplit
    obtain ⟨ha, hb, ht⟩ := h
    have hlen : p.length + 2 = t.length + part2.length := by
      have := congrArg List.length ht
      simpa using this
    have hp2 : 1 ≤ part2.length := by
      cases part2 with
      | nil => exact absurd rfl hne
      | cons x xs => simp
    unfold tryParse
    rw [if_neg (by simp), if_neg (by simp [← ha]), if_neg (by simp)]
    simp only [List.tail_cons, List.headD_cons]
    rw [if_pos (by omega)]

/-! ## Facts about draining the accumulator -/

theorem drainFuel_nil : ∀ f, drainFuel f [] = ⟨[], [], 0⟩ := by
  intro f
  cases f with
  | zero => rfl
  | succ n => simp [drainFuel, tryParse_nil]

theorem drainFuel_congr : ∀ (f1 : Nat) (acc : List Nat) (f2 : Nat),
    acc.length ≤ f1 → acc.length ≤ f2 → drainFuel f1 acc = drainFuel f2 acc := by
  intro f1
  induction f1 with
  | zero =>
    intro acc f2 h1 _
    have : acc = [] := by cases acc <;> simp_all
    subst this
    rw [drainFuel_nil, drainFuel_nil]
  | succ n ih =>
    intro acc f2 h1 h2
    cases f2 with
    | zero =>
      have : acc = [] := by cases acc <;> simp_all
      subst this
      rw [drainFuel_nil, drainFuel_nil]
    | succ m =>
      show drainFuel (n + 1) acc = drainFuel (m + 1) acc
      simp only [drainFuel]
      cases hp : tryParse acc with
      | wait => rfl
      | skip r c =>
        have hr := tryParse_skip_length hp
        show addCorrupt c (drainFuel n r) = addCorrupt c (drainFuel m r)
        rw [ih r m (by omega) (by omega)]
      | frame q r =>
        have hr := tryParse_frame_length hp
        show consFrame q (drainFuel n r) = consFrame q (drainFuel m r)
        rw [ih r m (by omega) (by omega)]

theorem drain_wait {acc : List Nat} (h : tryParse acc = .wait) :
    drain acc = ⟨[], acc, 0⟩ := by
  unfold drain
  cases hl : acc.length with
  | zero => rfl
  | succ n => simp only [drainFuel]; rw [h]

theorem drain_skip {acc r : List Nat} {c : Bool} (h : tryParse acc = .skip r c) :
    drain acc = addCorrupt c (drain r) := by
  have hl := tryParse_skip_length h
  unfold drain
  obtain ⟨n, hn⟩ : ∃ n, acc.length = n + 1 := ⟨acc.length - 1, by omega⟩
  rw [hn]
  simp only [drainFuel]
  rw [h]
  show addCorrupt c (drainFuel n r) = addCorrupt c (drainFuel r.length r)
  rw [drainFuel_congr n r r.length (by omega) le_rfl]

theorem drain_frame {acc r p : List Nat} (h : tryParse acc = .frame p r) :
    drain acc = consFrame p (drain r) := by
  have hl := tryParse_frame_length h
  unfold drain
  obtain ⟨n, hn⟩ : ∃ n, acc.length = n + 1 := ⟨acc.length - 1, by omega⟩
  rw [hn]
  simp only [drainFuel]
  rw [h]
  show consFrame p (drainFuel n r) = consFrame p (drainFuel r.length r)
  rw [drainFuel_congr n r r.length (by omega) le_rfl]

theorem drain_garbage {g : List Nat} (acc : List Nat)
    (hg : ∀ x ∈ g, x ≠ FRAME_START) : drain (g ++ acc) = drain acc := by
  induction g with
  | nil => rfl
  | cons x t ih =>
    have hx : x ≠ FRAME_START := hg x (by simp)
    rw [List.cons_append, drain_skip (tryParse_garbage (t ++ acc) hx),
        ih (fun y hy => hg y (by simp [hy]))]
    simp [addCorrupt]

theorem drain_encode (p rest : List Nat) :
    drain (encodeFrame p ++ rest) = consFrame p (drain rest) :=
  drain_frame (tryParse_encode p rest)

/-- The core garbage-tolerance result: a stream of well-formed frames
interleaved with start-marker-free garbage drains to exactly the frames'
payloads, with nothing retained and no corrupt frames counted. -/
theorem drain_assemble : ∀ (segs : List (List Nat × List Nat)) (gEnd : List Nat),
    (∀ s ∈ segs, ∀ b ∈ s.1, b ≠ FRAME_START) → (∀ b ∈ gEnd, b ≠ FRAME_START) →
    drain (assemble segs gEnd) = ⟨segs.map Prod.snd, [], 0⟩ := by
  intro segs
  induction segs with
  | nil =>
    intro gEnd _ hend
    show drain gEnd = _
    have : drain (gEnd ++ []) = drain [] := drain_garbage [] hend
    rw [List.append_nil] at this
    rw [this]
    rfl
  | cons s rest ih =>
    intro gEnd hg hend
    obtain ⟨g, p⟩ := s
    show drain (g ++ (encodeFrame p ++ assemble rest gEnd)) = _
    rw [drain_garbage _ (fun b hb => hg (g, p) (by simp) b hb),
        drain_encode, ih gEnd (fun t htm => hg t (by simp [htm])) hend]
    rfl

/-! ## Facts about the budget-bounded drain and `pollBytes` -/

theorem drainBoundedFuel_nil : ∀ f b, drainBoundedFuel f b [] = ⟨[], [], 0⟩ := by
  intro f b
  cases f with
  | zero => rfl
  | succ n =>
    cases b with
    | zero => rfl
    | succ m => simp [drainBoundedFuel, tryParse_nil]

theorem drainBoundedFuel_congr : ∀ (f1 : Nat) (acc : List Nat) (f2 b : Nat),
    acc.length ≤ f1 → acc.length ≤ f2 →
    drainBoundedFuel f1 b acc = drainBoundedFuel f2 b acc := by
  intro f1
  induction f1 with
  | zero =>
    intro acc f2 b h1 _
    have : acc = [] := by cases acc <;> simp_all
    subst this
    rw [drainBoundedFuel_nil, drainBoundedFuel_nil]
  | succ n ih =>
    intro acc f2 b h1 h2
    cases f2 with
    | zero =>
      have : acc = [] := by cases acc <;> simp_all
      subst this
      rw [drainBoundedFuel_nil, drainBoundedFuel_nil]
    | succ m =>
      cases b with
      | zero => rfl
      | succ k =>
        show drainBoundedFuel (n + 1) (k + 1) acc = drainBoundedFuel (m + 1) (k + 1) acc
        simp only [drainBoundedFuel]
        cases hp : tryParse acc with
        | wait => rfl
        | skip r c =>
          have hr := tryParse_skip_length hp
          show addCorrupt c (drainBoundedFuel n (k + 1) r)
              = addCorrupt c (drainBoundedFuel m (k + 1) r)
          rw [ih r m (k + 1) (by omega) (by omega)]
        | frame q r =>
          have hr := tryParse_frame_length hp
          show consFrame q (drainBoundedFuel n k r) = consFrame q (drainBoundedFuel m k r)
          rw [ih r m k (by omega) (by omega)]

theorem drain_nil : drain [] = ⟨[], [], 0⟩ := rfl

theorem drainBounded_nil (b : Nat) : drainBounded b [] = ⟨[], [], 0⟩ := by
  unfold drainBounded
  rw [drainBoundedFuel_nil]

theorem drainBounded_zero (acc : List Nat) : drainBounded 0 acc = ⟨[], acc, 0⟩ := by
  unfold drainBounded
  cases acc.length with
  | zero => rfl
  | succ n => rfl

theorem drainBounded_wait {acc : List Nat} (b : Nat) (h : tryParse acc = .wait) :
    drainBounded b acc = ⟨[], acc, 0⟩ := by
  unfold drainBounded
  cases acc.length with
  | zero => rfl
  | succ n =>
    cases b with
    | zero => rfl
    | succ k => simp only [drainBoundedFuel]; rw [h]

theorem drainBounded_skip {acc r : List Nat} {c : Bool} (b : Nat)
    (h : tryParse acc = .skip r c) :
    drainBounded (b + 1) acc = addCorrupt c (drainBounded (b + 1) r) := by
  have hl := tryParse_skip_length h
  unfold drainBounded
  obtain ⟨n, hn⟩ : ∃ n, acc.length = n + 1 := ⟨acc.length - 1, by omega⟩
  rw [hn]
  simp only [drainBoundedFuel]
  rw [h]
  show addCorrupt c (drainBoundedFuel n (b + 1) r)
      = addCorrupt c (drainBoundedFuel r.length (b + 1) r)
  rw [drainBoundedFuel_congr n r r.length (b + 1) (by omega) le_rfl]

theorem drainBounded_frame {acc r p : List Nat} (b : Nat)
    (h : tryParse acc = .frame p r) :
    drainBounded (b + 1) acc = consFrame p (drainBounded b r) := by
  have hl := tryParse_frame_length h
  unfold drainBounded
  obtain ⟨n, hn⟩ : ∃ n, acc.length = n + 1 := ⟨acc.length - 1, by omega⟩
  rw [hn]
  simp only [drainBoundedFuel]
  rw [h]
  show consFrame p (drainBoundedFuel n b r) = consFrame p (drainBoundedFuel r.length b r)
  rw [drainBoundedFuel_congr n r r.length b (by omega) le_rfl]

/-- The budget bounds the number of frames extracted in one invocation. -/
theorem drainBounded_frames_le : ∀ (n : Nat) (acc : List Nat) (b : Nat),
    acc.length ≤ n → (drainBounded b acc).frames.length ≤ b := by
  intro n
  induction n with
  | zero =>
    intro acc b h
    have : acc = [] := by cases acc <;> simp_all
    subst this
    show (drainBoundedFuel _ b []).frames.length ≤ b
    rw [drainBoundedFuel_nil]
    simp
  | succ n ih =>
    intro acc b h
    cases hp : tryParse acc with
    | wait => rw [drainBounded_wait b hp]; simp
    | skip r c =>
      cases b with
      | zero => rw [drainBounded_zero]; simp
      | succ k =>
        rw [drainBounded_skip k hp]
        have hr := tryParse_skip_length hp
        have := ih r (k + 1) (by omega)
        simpa [addCorrupt] using this
    | frame p r =>
      cases b with
      | zero => rw [drainBounded_zero]; simp
      | succ k =>
        rw [drainBounded_frame k hp]
        have hr := tryParse_frame_length hp
        have := ih r k (by omega)
        simp [consFrame]
        omega

/-- Draining to quiescence factors through any single budget-bounded pass. -/
theorem drain_split : ∀ (n : Nat) (acc : List Nat) (b : Nat), acc.length ≤ n →
    (drain acc).frames
        = (drainBounded b acc).frames ++ (drain (drainBounded b acc).rest).frames ∧
    (drain acc).rest = (drain (drainBounded b acc).rest).rest ∧
    (drain acc).corrupt
        = (drainBounded b acc).corrupt + (drain (drainBounded b acc).rest).corrupt := by
  intro n
  induction n with
  | zero =>
    intro acc b h
    have : acc = [] := by cases acc <;> simp_all
    subst this
    rw [drainBounded_nil]
    simp [drain_nil]
  | succ n ih =>
    intro acc b h
    cases b with
    | zero =>
      rw [drainBounded_zero]
      simp
    | succ k =>
      cases hp : tryParse acc with
      | wait =>
        rw [drainBounded_wait (k + 1) hp, drain_wait hp]
        simp [drain_wait hp]
      | skip r c =>
        have hr := tryParse_skip_length hp
        rw [drainBounded_skip k hp, drain_skip hp]
        obtain ⟨ih1, ih2, ih3⟩ := ih r (k + 1) (by omega)
        refine ⟨?_, ?_, ?_⟩ <;> simp [addCorrupt, ih1, ih2, ih3] <;> omega
      | frame p r =>
        have hr := tryParse_frame_length hp
        rw [drainBounded_frame k hp, drain_frame hp]
        obtain ⟨ih1, ih2, ih3⟩ := ih r k (by omega)
        refine ⟨?_, ?_, ?_⟩ <;> simp [consFrame, ih1, ih2, ih3]

/-- A bounded pass with a positive budget that extracted no frame has already
reached quiescence. -/
theorem drainBounded_no_frames : ∀ (n : Nat) (acc : List Nat) (b : Nat),
    acc.length ≤ n → (drainBounded (b + 1) acc).frames = [] →
    drainBounded (b + 1) acc = drain acc := by
  intro n
  induction n with
  | zero =>
    intro acc b h _
    have : acc = [] := by cases acc <;> simp_all
    subst this
    show drainBoundedFuel _ (b + 1) [] = drainFuel _ []
    rw [drainBoundedFuel_nil, drainFuel_nil]
  | succ n ih =>
    intro acc b h hempty
    cases hp : tryParse acc with
    | wait => rw [drainBounded_wait (b + 1) hp, drain_wait hp]
    | skip r c =>
      have hr := tryParse_skip_length hp
      rw [drainBounded_skip b hp] at hempty ⊢
      rw [drain_skip hp]
      rw [ih r b (by omega) (by simpa [addCorrupt] using hempty)]
    | frame p r =>
      rw [drainBounded_frame b hp] at hempty
      simp [consFrame] at hempty

/-- After quiescence nothing further can be parsed from the retained rest. -/
theorem drain_rest_wait : ∀ (n : Nat) (acc : List Nat), acc.length ≤ n →
    tryParse ((drain acc).rest) = .wait := by
  intro n
  induction n with
  | zero =>
    intro acc h
    have : acc = [] := by cases acc <;> simp_all
    subst this
    rw [drain_nil]
    exact tryParse_nil
  | succ n ih =>
    intro acc h
    cases hp : tryParse acc with
    | wait => rw [drain_wait hp]; exact hp
    | skip r c =>
      have hr := tryParse_skip_length hp
      rw [drain_skip hp]
      show tryParse (drain r).rest = .wait
      exact ih r (by omega)
    | frame p r =>
      have hr := tryParse_frame_length hp
      rw [drain_frame hp]
      show tryParse (drain r).rest = .wait
      exact ih r (by omega)

/-- Enough `pollBytes` invocations with no further input deliver exactly the
frames that draining the held accumulator to quiescence yields; the retained
rest and the corrupt counter agree as well. -/
theorem pollMany_drain : ∀ (n : Nat) (acc : List Nat) (cc : Nat),
    (drain acc).frames.length ≤ n →
    pollMany (n + 1) ⟨acc, cc⟩
      = (⟨(drain acc).rest, cc + (drain acc).corrupt⟩, (drain acc).frames) := by
  intro n
  induction n with
  | zero =>
    intro acc cc h
    have hempty : (drain acc).frames = [] := by
      cases hf : (drain acc).frames with
      | nil => rfl
      | cons a t => rw [hf] at h; simp at h
    have hb : drainBounded CONFIG_MAX_FRAMES_PER_CYCLE acc = drain acc := by
      apply drainBounded_no_frames acc.length acc 4 le_rfl
      obtain ⟨h1, _, _⟩ := drain_split acc.length acc CONFIG_MAX_FRAMES_PER_CYCLE le_rfl
      rw [hempty] at h1
      exact List.append_eq_nil.mp h1.symm |>.1
    show ((pollMany 0 (pollBytes ⟨acc, cc⟩ []).1).1,
        (pollBytes ⟨acc, cc⟩ []).2 ++ (pollMany 0 (pollBytes ⟨acc, cc⟩ []).1).2) = _
    simp only [pollMany, pollBytes, List.append_nil]
    rw [hb, hempty]
  | succ n ih =>
    intro acc cc h
    have hsplit := drain_split acc.length acc CONFIG_MAX_FRAMES_PER_CYCLE le_rfl
    obtain ⟨h1, h2, h3⟩ := hsplit
    have hrem : (drain (drainBounded CONFIG_MAX_FRAMES_PER_CYCLE acc).rest).frames.length ≤ n := by
      by_cases hfe : (drainBounded CONFIG_MAX_FRAMES_PER_CYCLE acc).frames = []
      · have hb : drainBounded CONFIG_MAX_FRAMES_PER_CYCLE acc = drain acc :=
          drainBounded_no_frames acc.length acc 4 le_rfl hfe
        rw [hb]
        have hw := drain_rest_wait acc.length acc le_rfl
        rw [drain_wait hw]
        simp
      · have : 1 ≤ (drainBounded CONFIG_MAX_FRAMES_PER_CYCLE acc).frames.length := by
          cases hf : (drainBounded CONFIG_MAX_FRAMES_PER_CYCLE acc).frames with
          | nil => exact absurd hf hfe
          | cons a t => simp [hf]
        have := congrArg List.length h1
        simp [List.length_append] at this
        omega
    show ((pollMany (n + 1) (pollBytes ⟨acc, cc⟩ []).1).1,
        (pollBytes ⟨acc, cc⟩ []).2 ++ (pollMany (n + 1) (pollBytes ⟨acc, cc⟩ []).1).2) = _
    simp only [pollBytes, List.append_nil]
    rw [ih (drainBounded CONFIG_MAX_FRAMES_PER_CYCLE acc).rest
        (cc + (drainBounded CONFIG_MAX_FRAMES_PER_CYCLE acc).corrupt) hrem]
    rw [h1, h2, h3]
    simp [Nat.add_assoc]

/-! ## Facts about the tracker -/

theorem snapshotAux_length : ∀ (l : List SlotState) (i : Nat),
    (snapshotAux i l).length = l.length := by
  intro l
  induction l with
  | nil => intro i; rfl
  | cons s t ih => intro i; simp [snapshotAux, ih]

theorem snapshotAux_getElem : ∀ (l : List SlotState) (k i : Nat),
    (snapshotAux k l)[i]?
      = (l[i]?).map (fun s => ⟨k + i, s.x, s.y, s.velocity, s.signal, s.occupied⟩) := by
  intro l
  induction l with
  | nil => intro k i; simp [snapshotAux]
  | cons s t ih =>
    intro k i
    cases i with
    | zero => simp [snapshotAux]
    | succ j =>
      simp only [snapshotAux, List.getElem?_cons_succ]
      rw [ih (k + 1) j]
      have : k + 1 + j = k + (j + 1) := by omega
      rw [this]

theorem assignRecord_length (ws : List (SlotState × Bool)) (r : TargetRecord) :
    (assignRecord ws r).length = ws.length := by
  unfold assignRecord
  split_ifs with h1
  · rfl
  · cases bestMatch r (candidates 0 ws) with
    | some ix => simp
    | none =>
      cases firstFree 0 ws with
      | some i => simp
      | none => rfl

theorem foldl_assign_length : ∀ (rs : List TargetRecord) (ws : List (SlotState × Bool)),
    (rs.foldl assignRecord ws).length = ws.length := by
  intro rs
  induction rs with
  | nil => intro ws; rfl
  | cons r t ih =>
    intro ws
    show (t.foldl assignRecord (assignRecord ws r)).length = ws.length
    rw [ih (assignRecord ws r), assignRecord_length]

theorem snapshot_length (t : TargetTracker) : (snapshot t).length = t.slots.length := by
  unfold snapshot
  exact snapshotAux_length t.slots 0

theorem updateMulti_length (t : TargetTracker) (rs : List TargetRecord) :
    (updateMulti t rs).slots.length = t.slots.length := by
  unfold updateMulti
  simp [foldl_assign_length]

theorem updateMulti_nil (t : TargetTracker) :
    updateMulti t [] = ⟨t.slots.map (fun s => missStep (s, false))⟩ := by
  unfold updateMulti
  simp [List.map_map]

/-! ## Facts about the dispatcher -/

theorem maybeEmit_emits_sets {sinks : List Sink} {d : OutputDispatcher}
    {snap : List TargetRecord} {now : Nat}
    (h : (maybeEmit sinks d snap now).2.1 = true) :
    (maybeEmit sinks d snap now).1.lastEmitMs = some now := by
  cases hd : d.lastEmitMs with
  | none => simp only [maybeEmit, hd]
  | some t =>
    simp only [maybeEmit, hd] at h ⊢
    split_ifs at h ⊢ with hc
    · rfl

theorem maybeEmit_state_lower {sinks : List Sink} {d : OutputDispatcher}
    {snap : List TargetRecord} {now t1 u : Nat}
    (hd : d.lastEmitMs = some u) (hu : t1 ≤ u) (hnow : t1 ≤ now) :
    ∃ w, (maybeEmit sinks d snap now).1.lastEmitMs = some w ∧ t1 ≤ w := by
  simp only [maybeEmit, hd]
  split_ifs with hc
  · exact ⟨now, rfl, hnow⟩
  · exact ⟨u, hd, hu⟩

theorem dispatchAfter_lower : ∀ (calls : List (List TargetRecord × Nat))
    (sinks : List Sink) (d : OutputDispatcher) (t1 u : Nat),
    d.lastEmitMs = some u → t1 ≤ u → (∀ c ∈ calls, t1 ≤ c.2) →
    ∃ w, (dispatchAfter sinks d calls).lastEmitMs = some w ∧ t1 ≤ w := by
  intro calls
  induction calls with
  | nil =>
    intro sinks d t1 u hd hu _
    exact ⟨u, hd, hu⟩
  | cons c rest ih =>
    intro sinks d t1 u hd hu hc
    obtain ⟨w, hw, htw⟩ :=
      @maybeEmit_state_lower sinks d c.1 c.2 t1 u hd hu (hc c (by simp))
    exact ih sinks _ t1 w hw htw (fun x hx => hc x (by simp [hx]))

theorem maybeEmit_suppress {sinks : List Sink} {d : OutputDispatcher}
    {snap : List TargetRecord} {now u : Nat}
    (hd : d.lastEmitMs = some u) (hlt : now - u < CONFIG_OUTPUT_INTERVAL_MS) :
    maybeEmit sinks d snap now = (d, false, []) := by
  simp only [maybeEmit, hd]
  rw [if_neg (by omega)]

theorem snapshot_getElem (t : TargetTracker) (i : Nat) :
    (snapshot t)[i]? = (t.slots[i]?).map
      (fun s => ⟨i, s.x, s.y, s.velocity, s.signal, s.occupied⟩) := by
  unfold snapshot
  rw [snapshotAux_getElem]
  simp

/-! ## The claims -/

/-- C1: two calls to `OutputDispatcher.maybeEmit` whose timestamps are less
than `CONFIG_OUTPUT_INTERVAL_MS` (100 ms) apart — with any number of further
calls in between, no matter how many frames were decoded — emit at most once:
the two calls cannot both emit, so sinks never receive updates faster than the
configured interval. -/
theorem C1_rate_limit (sinks : List Sink) (d : OutputDispatcher)
    (snap1 snap2 : List TargetRecord) (mid : List (List TargetRecord × Nat))
    (t1 t2 : Nat) (hmid : ∀ c ∈ mid, t1 ≤ c.2)
    (hclose : t2 - t1 < CONFIG_OUTPUT_INTERVAL_MS) :
    ¬((maybeEmit sinks d snap1 t1).2.1 = true ∧
      (maybeEmit sinks (dispatchAfter sinks (maybeEmit sinks d snap1 t1).1 mid)
          snap2 t2).2.1 = true) := by
  rintro ⟨h1, h2⟩
  have hset := maybeEmit_emits_sets h1
  obtain ⟨w, hw, htw⟩ := dispatchAfter_lower mid sinks _ t1 t1 hset le_rfl hmid
  have hge : CONFIG_OUTPUT_INTERVAL_MS ≤ t2 - w := by
    by_contra hlt
    push_neg at hlt
    rw [maybeEmit_suppress hw hlt] at h2
    simp at h2
  have hC : CONFIG_OUTPUT_INTERVAL_MS = 100 := rfl
  omega

/-- Witness for C1: with a fresh dispatcher, a first call at time 0 and a
second at time 50 (closer than 100 ms, no calls in between) do not both
emit. -/
theorem C1_rate_limit_witness :
    ¬((maybeEmit [] ⟨none⟩ [] 0).2.1 = true ∧
      (maybeEmit [] (dispatchAfter [] (maybeEmit [] ⟨none⟩ [] 0).1 []) [] 50).2.1
        = true) :=
  C1_rate_limit [] ⟨none⟩ [] [] [] 0 50 (by simp) (by decide)

/-- C2: every call to `update` on a well-formed tracker produces a snapshot of
the same constant length — `CONFIG_MAX_TARGETS` when multi-target mode is
enabled and 1 when it is disabled — and preserves tracker well-formedness;
the initial tracker is well-formed, so the length is invariant across all
calls. -/
theorem C2_snapshot_length (multi : Bool) (t : TargetTracker)
    (rs : List TargetRecord)
    (h : t.slots.length = snapshotLen multi CONFIG_MAX_TARGETS) :
    ((update multi t rs).2).length = snapshotLen multi CONFIG_MAX_TARGETS ∧
    (update multi t rs).1.slots.length = snapshotLen multi CONFIG_MAX_TARGETS ∧
    (initTracker multi CONFIG_MAX_TARGETS).slots.length
      = snapshotLen multi CONFIG_MAX_TARGETS ∧
    snapshotLen true CONFIG_MAX_TARGETS = CONFIG_MAX_TARGETS ∧
    snapshotLen false CONFIG_MAX_TARGETS = 1 := by
  refine ⟨?_, ?_, ?_, rfl, rfl⟩
  · cases multi with
    | false =>
      show (snapshot (updateSingle rs)).length = _
      rw [snapshot_length]
      unfold updateSingle
      cases rs.find? (fun r => r.valid) <;> simp [snapshotLen]
    | true =>
      show (snapshot (updateMulti t rs)).length = _
      rw [snapshot_length, updateMulti_length, h]
  · cases multi with
    | false =>
      show (updateSingle rs).slots.length = _
      unfold updateSingle
      cases rs.find? (fun r => r.valid) <;> simp [snapshotLen]
    | true =>
      show (updateMulti t rs).slots.length = _
      rw [updateMulti_length, h]
  · simp [initTracker]

/-- Witness for C2: a well-formed single-target tracker with one empty slot
and an empty record list. -/
theorem C2_snapshot_length_witness :
    ((update false ⟨[emptySlot]⟩ []).2).length = snapshotLen false CONFIG_MAX_TARGETS ∧
    (update false ⟨[emptySlot]⟩ []).1.slots.length = snapshotLen false CONFIG_MAX_TARGETS ∧
    (initTracker false CONFIG_MAX_TARGETS).slots.length
      = snapshotLen false CONFIG_MAX_TARGETS ∧
    snapshotLen true CONFIG_MAX_TARGETS = CONFIG_MAX_TARGETS ∧
    snapshotLen false CONFIG_MAX_TARGETS = 1 :=
  C2_snapshot_length false ⟨[emptySlot]⟩ [] (by decide)

/-- C3 counterexample: the stream consisting solely of the garbage bytes
`[170, 1, 0, 0, 85]` — the decomposition with zero well-formed frame segments
(`segs = []`, N = 0) — makes the reader yield one frame, not zero.  Arbitrary
garbage can itself spell a well-formed frame, so a spurious frame is produced
and the claim fails as stated for arbitrary garbage. -/
theorem C3_garbage_counterexample :
    assemble [] [170, 1, 0, 0, 85] = [170, 1, 0, 0, 85] ∧
    ([] : List (List Nat × List Nat)).length = 0 ∧
    (pollMany 1 ⟨assemble [] [170, 1, 0, 0, 85], 0⟩).2.length = 1 := by
  decide

/-- C3 (amended): for every byte stream of N well-formed frames interleaved
with garbage that contains no start-marker byte, the FrameReader eventually —
here within `N + 1` polls — yields exactly the N frames, in order, losing
none to the surrounding garbage and producing no spurious frame from it. -/
theorem C3_garbage_tolerance (segs : List (List Nat × List Nat)) (gEnd : List Nat)
    (hg : ∀ s ∈ segs, ∀ b ∈ s.1, b ≠ FRAME_START)
    (hend : ∀ b ∈ gEnd, b ≠ FRAME_START) :
    (pollMany (segs.length + 1) ⟨assemble segs gEnd, 0⟩).2 = segs.map Prod.snd := by
  have hd := drain_assemble segs gEnd hg hend
  have hlen : (drain (assemble segs gEnd)).frames.length ≤ segs.length := by
    rw [hd]
    simp
  rw [pollMany_drain segs.length (assemble segs gEnd) 0 hlen, hd]

/-- Witness for the amended C3: one frame with payload `[2, 3]` surrounded by
start-marker-free garbage is recovered exactly. -/
theorem C3_garbage_tolerance_witness :
    (pollMany 2 ⟨assemble [([1], [2, 3])] [0], 0⟩).2 = [[2, 3]] :=
  C3_garbage_tolerance [([1], [2, 3])] [0] (by decide) (by decide)

/-- C4: in multi-target mode, an occupied slot with miss count 0 that receives
no matching record is still valid in the snapshots of the first and second
consecutive missed frames and is marked invalid exactly on the
`DEBOUNCE_MISS_THRESHOLD`-th (3rd) consecutive miss. -/
theorem C4_debounce (t : TargetTracker) (i : Nat) (s : SlotState)
    (hget : t.slots[i]? = some s) (hocc : s.occupied = true)
    (hmc : s.missCount = 0) :
    (((update true t []).2)[i]?).map TargetRecord.valid = some true ∧
    (((update true (update true t []).1 []).2)[i]?).map TargetRecord.valid
      = some true ∧
    (((update true (update true (update true t []).1 []).1 []).2)[i]?).map
        TargetRecord.valid = some false := by
  obtain ⟨occ, x, y, v, sg, mc⟩ := s
  simp only at hocc hmc
  subst hocc hmc
  have h1 : (updateMulti t []).slots[i]? = some ⟨true, x, y, v, sg, 1⟩ := by
    rw [updateMulti_nil]
    show (t.slots.map (fun s => missStep (s, false)))[i]? = _
    rw [List.getElem?_map, hget]
    rfl
  have h2 : (updateMulti (updateMulti t []) []).slots[i]?
      = some ⟨true, x, y, v, sg, 2⟩ := by
    rw [updateMulti_nil (updateMulti t [])]
    show ((updateMulti t []).slots.map (fun s => missStep (s, false)))[i]? = _
    rw [List.getElem?_map, h1]
    rfl
  have h3 : (updateMulti (updateMulti (updateMulti t []) []) []).slots[i]?
      = some ⟨false, x, y, v, sg, 0⟩ := by
    rw [updateMulti_nil (updateMulti (updateMulti t []) [])]
    show ((updateMulti (updateMulti t []) []).slots.map
        (fun s => missStep (s, false)))[i]? = _
    rw [List.getElem?_map, h2]
    rfl
  refine ⟨?_, ?_, ?_⟩
  · show ((snapshot (updateMulti t []))[i]?).map TargetRecord.valid = some true
    rw [snapshot_getElem, h1]
    rfl
  · show ((snapshot (updateMulti (updateMulti t []) []))[i]?).map
        TargetRecord.valid = some true
    rw [snapshot_getElem, h2]
    rfl
  · show ((snapshot (updateMulti (updateMulti (updateMulti t []) []) []))[i]?).map
        TargetRecord.valid = some false
    rw [snapshot_getElem, h3]
    rfl

/-- Witness for C4: a three-slot tracker whose slot 0 is occupied with miss
count 0; fed three consecutive empty frames, slot 0 stays valid twice and is
invalidated on the third. -/
theorem C4_debounce_witness :
    (((update true ⟨[⟨true, 5, 5, 0, 0, 0⟩, emptySlot, emptySlot]⟩ []).2)[0]?).map
        TargetRecord.valid = some true ∧
    (((update true (update true ⟨[⟨true, 5, 5, 0, 0, 0⟩, emptySlot, emptySlot]⟩ []).1
        []).2)[0]?).map TargetRecord.valid = some true ∧
    (((update true (update true (update true
        ⟨[⟨true, 5, 5, 0, 0, 0⟩, emptySlot, emptySlot]⟩ []).1 []).1 []).2)[0]?).map
        TargetRecord.valid = some false :=
  C4_debounce ⟨[⟨true, 5, 5, 0, 0, 0⟩, emptySlot, emptySlot]⟩ 0 ⟨true, 5, 5, 0, 0, 0⟩
    (by decide) (by decide) (by decide)

/-- C5: decoding is pure and idempotent — a decode step leaves the system
state unchanged, and calling `decode` a second time on the same frame, in the
state left by the first call, yields an identical result. -/
theorem C5_decode_pure (multi : Bool) (maxTargets : Nat) (s : SysState)
    (frame : List Nat) :
    (decodeStep multi maxTargets s frame).1 = s ∧
    (decodeStep multi maxTargets (decodeStep multi maxTargets s frame).1 frame).2
      = (decodeStep multi maxTargets s frame).2 :=
  ⟨rfl, rfl⟩

/-- C6: a single `pollBytes` invocation yields at most
`CONFIG_MAX_FRAMES_PER_CYCLE` frames; and a frame split across two arrivals is
not discarded: the first call retains the incomplete prefix in the
accumulator and yields nothing, and the second call completes the frame. -/
theorem C6_budget_and_retention (r : FrameReader) (bytes : List Nat)
    (p part1 part2 : List Nat) (hsplit : encodeFrame p = part1 ++ part2)
    (hne : part2 ≠ []) :
    (pollBytes r bytes).2.length ≤ CONFIG_MAX_FRAMES_PER_CYCLE ∧
    pollBytes ⟨[], 0⟩ part1 = (⟨part1, 0⟩, []) ∧
    pollBytes (pollBytes ⟨[], 0⟩ part1).1 part2 = (⟨[], 0⟩, [p]) := by
  have hw := tryParse_prefix_wait hsplit hne
  have hb : pollBytes ⟨[], 0⟩ part1 = (⟨part1, 0⟩, []) := by
    simp only [pollBytes, List.nil_append]
    rw [drainBounded_wait _ hw]
    rfl
  have hfr : tryParse (encodeFrame p) = .frame p [] := by
    have h := tryParse_encode p []
    rwa [List.append_nil] at h
  have hdb : drainBounded CONFIG_MAX_FRAMES_PER_CYCLE (encodeFrame p)
      = ⟨[p], [], 0⟩ := by
    show drainBounded (4 + 1) (encodeFrame p) = _
    rw [drainBounded_frame 4 hfr, drainBounded_nil]
    rfl
  refine ⟨?_, hb, ?_⟩
  · show (drainBounded CONFIG_MAX_FRAMES_PER_CYCLE (r.acc ++ bytes)).frames.length ≤ _
    exact drainBounded_frames_le (r.acc ++ bytes).length _ _ le_rfl
  · rw [hb]
    unfold pollBytes
    dsimp only
    rw [← hsplit, hdb]
    rfl

/-- Witness for C6: the frame `encodeFrame [7] = [170, 1, 7, 7, 85]` split as
`[170, 1, 7]` then `[7, 85]` is retained and completed across the two
calls. -/
theorem C6_budget_and_retention_witness :
    (pollBytes ⟨[], 7⟩ [1, 2, 3]).2.length ≤ CONFIG_MAX_FRAMES_PER_CYCLE ∧
    pollBytes ⟨[], 0⟩ [170, 1, 7] = (⟨[170, 1, 7], 0⟩, []) ∧
    pollBytes (pollBytes ⟨[], 0⟩ [170, 1, 7]).1 [7, 85] = (⟨[], 0⟩, [[7]]) :=
  C6_budget_and_retention ⟨[], 7⟩ [1, 2, 3] [7] [170, 1, 7] [7, 85]
    (by decide) (by decide)

/-- C7: a `maybeEmit` call made before `CONFIG_OUTPUT_INTERVAL_MS` has elapsed
since the last emission returns `false` and leaves every observable piece of
state unchanged: the dispatcher (including the stored last-emit timestamp) is
returned as-is and no sink receives a delivery. -/
theorem C7_suppress_no_side_effect (sinks : List Sink) (d : OutputDispatcher)
    (snap : List TargetRecord) (now u : Nat) (hd : d.lastEmitMs = some u)
    (hlt : now - u < CONFIG_OUTPUT_INTERVAL_MS) :
    maybeEmit sinks d snap now = (d, false, []) :=
  maybeEmit_suppress hd hlt

/-- Witness for C7: a dispatcher that last emitted at time 0, called again at
time 80. -/
theorem C7_suppress_no_side_effect_witness :
    maybeEmit [] ⟨some 0⟩ [] 80 = (⟨some 0⟩, false, []) :=
  C7_suppress_no_side_effect [] ⟨some 0⟩ [] 80 0 rfl (by decide)

/-- C8: in single-target mode, one valid record at position (120, 45) makes
`update` produce the snapshot `[{slot 0, 120, 45, valid}]`; and with
`CONFIG_OUTPUT_INTERVAL_MS = 100`, `maybeEmit` returns `false` 80 ms after a
prior emission and `true` 120 ms after it. -/
theorem C8_single_target_scenario (t0 : Nat) (sinks : List Sink) :
    (update false (initTracker false CONFIG_MAX_TARGETS)
        [⟨0, 120, 45, 0, 0, true⟩]).2 = [⟨0, 120, 45, 0, 0, true⟩] ∧
    (maybeEmit sinks ⟨some t0⟩ [] (t0 + 80)).2.1 = false ∧
    (maybeEmit sinks ⟨some t0⟩ [] (t0 + 120)).2.1 = true := by
  refine ⟨rfl, ?_, ?_⟩
  · simp only [maybeEmit, Nat.add_sub_cancel_left]
    rw [if_neg (by decide)]
  · simp only [maybeEmit, Nat.add_sub_cancel_left]
    rw [if_pos (by decide)]

/-- C9: errors are contained — every control-loop iteration returns normally
on all inputs (frame and decode errors only bump counters and discard data);
a corrupt frame in the stream increments the corrupt counter by one, is
discarded, and the next well-formed frame still parses; and during an
emission every sink receives its own delivery regardless of any other sink's
failure. -/
theorem C9_error_containment :
    (∀ (multi : Bool) (maxTargets : Nat) (sinks : List Sink) (s : SysState)
        (bytes : List Nat) (now : Nat),
      ∃ s2, loopStep multi maxTargets sinks s bytes now = Except.ok s2) ∧
    drain ([170, 1, 7, 99, 85] ++ encodeFrame [2]) = ⟨[[2]], [], 1⟩ ∧
    (∀ (sinks : List Sink) (d : OutputDispatcher) (snap : List TargetRecord)
        (now j : Nat), (maybeEmit sinks d snap now).2.1 = true →
      ((maybeEmit sinks d snap now).2.2)[j]?
        = (sinks[j]?).map (fun k => k.accept snap)) := by
  refine ⟨fun multi maxT sinks s bytes now => ⟨_, rfl⟩, by decide, ?_⟩
  intro sinks d snap now j h
  cases hd : d.lastEmitMs with
  | none =>
    simp only [maybeEmit, hd]
    rw [List.getElem?_map]
  | some t =>
    simp only [maybeEmit, hd] at h ⊢
    split_ifs at h ⊢ with hc
    · rw [List.getElem?_map]

/-- Witness for C9: with a failing first sink and a succeeding second sink,
an emitting call still delivers to the second sink. -/
theorem C9_error_containment_witness :
    ((maybeEmit [⟨fun _ => false⟩, ⟨fun _ => true⟩] ⟨none⟩ [] 0).2.2)[1]?
      = some true := by
  have h := C9_error_containment.2.2 [⟨fun _ => false⟩, ⟨fun _ => true⟩]
    ⟨none⟩ [] 0 1 rfl
  simpa using h

/-- C10: every configuration constant's initializer evaluates exactly within
its declared integer type with no overflow or truncation: the `uint32_t`
initializers `1024 * 100` and `256000UL` store exactly 102400 and 256000
(below `2^32`), every `uint16_t` constant is below `2^16`, every `uint8_t`
constant is below `2^8`, and the `int` constant 15000 is within 32-bit
range. -/
theorem C10_config_in_range :
    CONFIG_MAX_LOG_FILE_SIZE = 102400 ∧ CONFIG_MAX_LOG_FILE_SIZE < 2 ^ 32 ∧
    CONFIG_BAUD_RATE = 256000 ∧ CONFIG_BAUD_RATE < 2 ^ 32 ∧
    CONFIG_RADAR_RX_PIN < 2 ^ 8 ∧ CONFIG_RADAR_TX_PIN < 2 ^ 8 ∧
    CONFIG_MAX_TARGETS < 2 ^ 8 ∧
    CONFIG_OUTPUT_INTERVAL_MS < 2 ^ 16 ∧ CONFIG_MAX_FRAMES_PER_CYCLE < 2 ^ 16 ∧
    CONFIG_WEB_SERVER_PORT < 2 ^ 16 ∧ CONFIG_LOG_INTERVAL_MS < 2 ^ 16 ∧
    -(2 ^ 31) ≤ CONFIG_WIFI_CONNECTION_TIMEOUT ∧
    CONFIG_WIFI_CONNECTION_TIMEOUT < 2 ^ 31 := by
  decide

end MMWave
